import Mathlib

/-!
Verification development for the pcap-file codec (classic packet-capture
format): a shallow embedding of the global-header and packet codecs, the
parser (`src/pcap/parser.rs`) and the writer (`src/writer.rs`), together
with theorems about the properties the design documents.

Bytes are modelled as `Nat` values below 256; buffers and sinks as
`List Nat`; `u32` fields as `Nat` with explicit `% 4294967296` where the
source casts; the `i32` timezone-correction field as `Int`.
-/

namespace PcapFile

/-- Byte order of multi-byte integer fields, fixed per stream by the magic
number (source: `Endianness` used by `parser.rs`). -/
inductive Endianness
  | Big
  | Little
deriving DecidableEq

/-- Timestamp resolution, fixed per stream by the magic number. -/
inductive TsResolution
  | MicroSecond
  | NanoSecond
deriving DecidableEq

/-- Error kinds of the codec (spec section 7); the sink is modelled as an
always-accepting byte list, so `SinkError` does not arise. -/
inductive PcapError
  | invalidMagicNumber
  | truncatedHeader
  | truncatedPacketData
deriving DecidableEq

/-- Fallible decode result, as the crate's `ResultParsing`. -/
inductive ResultParsing (α : Type)
  | ok (a : α)
  | error (e : PcapError)
deriving DecidableEq

/-- Encode a 16-bit unsigned value as two bytes in the given byte order
(semantics of the byteorder crate's `write_u16`). -/
def enc16 (e : Endianness) (n : Nat) : List Nat :=
  match e with
  | .Big => [n / 256 % 256, n % 256]
  | .Little => [n % 256, n / 256 % 256]

/-- Encode a 32-bit unsigned value as four bytes in the given byte order
(semantics of the byteorder crate's `write_u32`). -/
def enc32 (e : Endianness) (n : Nat) : List Nat :=
  match e with
  | .Big => [n / 16777216 % 256, n / 65536 % 256, n / 256 % 256, n % 256]
  | .Little => [n % 256, n / 256 % 256, n / 65536 % 256, n / 16777216 % 256]

/-- Read a 16-bit unsigned value from the first two bytes of a buffer
(semantics of the byteorder crate's `read_u16`; 0 on a short buffer, which
the decoders rule out by length guards). -/
def word16 (e : Endianness) (l : List Nat) : Nat :=
  match l with
  | b0 :: b1 :: _ =>
    match e with
    | .Big => b0 * 256 + b1
    | .Little => b1 * 256 + b0
  | _ => 0

/-- Read a 32-bit unsigned value from the first four bytes of a buffer
(semantics of the byteorder crate's `read_u32`; 0 on a short buffer, which
the decoders rule out by length guards). -/
def word32 (e : Endianness) (l : List Nat) : Nat :=
  match l with
  | b0 :: b1 :: b2 :: b3 :: _ =>
    match e with
    | .Big => ((b0 * 256 + b1) * 256 + b2) * 256 + b3
    | .Little => ((b3 * 256 + b2) * 256 + b1) * 256 + b0
  | _ => 0

/-- Modelled from the spec: the link-layer type is "a numeric code
(symbolic set, e.g. Ethernet)"; the `Datalink` enum itself is not under
`src/`, so the field is carried as its `u32` code. Ethernet is code 1. -/
def Datalink.Ethernet : Nat := 1

/-- The global pcap header (spec section 3 data model; the `PcapHeader`
struct itself is not under `src/`). `datalink` is the numeric link-type
code. -/
structure PcapHeader where
  magic_number : Nat
  version_major : Nat
  version_minor : Nat
  ts_correction : Int
  ts_accuracy : Nat
  snaplen : Nat
  datalink : Nat
deriving DecidableEq

/-- The four accepted magic numbers (spec section 6). -/
def acceptedMagics : List Nat := [0xa1b2c3d4, 0xd4c3b2a1, 0xa1b23c4d, 0x4d3cb2a1]

/-- Modelled from the spec: byte order as a pure function of the magic
number (`PcapHeader::endianness` is not under `src/`). -/
def magicEndianness (m : Nat) : Endianness :=
  if m = 0xa1b2c3d4 ∨ m = 0xa1b23c4d then .Big else .Little

/-- Modelled from the spec: timestamp unit as a pure function of the magic
number (`PcapHeader::ts_resolution` is not under `src/`). -/
def magicTsResolution (m : Nat) : TsResolution :=
  if m = 0xa1b2c3d4 ∨ m = 0xd4c3b2a1 then .MicroSecond else .NanoSecond

/-- Derived byte order of a header (pure function of its magic number). -/
def PcapHeader.endianness (h : PcapHeader) : Endianness :=
  magicEndianness h.magic_number

/-- Derived timestamp unit of a header (pure function of its magic number). -/
def PcapHeader.ts_resolution (h : PcapHeader) : TsResolution :=
  magicTsResolution h.magic_number

/-- Modelled from the spec: `PcapHeader::to_array` is not under `src/`.
Per spec section 4.1, encode "writes the magic number literally (its bit
pattern already encodes both the chosen byte order and timestamp unit —
it is not re-derived, simply copied)", i.e. the magic constant's own four
bytes, "then writes the remaining fields using the byte order implied by
the magic number"; the writer always passes the byte order matching the
magic. The `i32` correction is written as its two's-complement bits. -/
def PcapHeader.to_array (h : PcapHeader) (e : Endianness) : List Nat :=
  enc32 .Big h.magic_number ++
  enc16 e h.version_major ++
  enc16 e h.version_minor ++
  enc32 e (h.ts_correction % 4294967296).toNat ++
  enc32 e h.ts_accuracy ++
  enc32 e h.snaplen ++
  enc32 e h.datalink

/-- Modelled from the spec: `PcapHeader::from_slice` is not under `src/`.
Per spec section 4.1, decode requires at least 24 bytes (else
`TruncatedHeader`), "reads the first 4 bytes as the magic number in both
orderings to determine which known constant it matches" (else
`InvalidMagicNumber`, the big-endian reading taking precedence), then
decodes the remaining fields in the byte order implied by the matched
constant and returns the header plus the slice starting after byte 24. -/
def PcapHeader.from_slice (buf : List Nat) : ResultParsing (PcapHeader × List Nat) :=
  if buf.length < 24 then .error .truncatedHeader
  else
    let mbe := word32 .Big buf
    let mle := word32 .Little buf
    if mbe ∈ acceptedMagics ∨ mle ∈ acceptedMagics then
      let magic := if mbe ∈ acceptedMagics then mbe else mle
      let e := magicEndianness magic
      let tsn := word32 e (buf.drop 8)
      .ok (⟨magic,
            word16 e (buf.drop 4),
            word16 e (buf.drop 6),
            if tsn < 2147483648 then (tsn : Int) else (tsn : Int) - 4294967296,
            word32 e (buf.drop 12),
            word32 e (buf.drop 16),
            word32 e (buf.drop 20)⟩,
           buf.drop 24)
    else .error .invalidMagicNumber

/-- The header value produced on the success path of
`PcapHeader.from_slice`, named for use in theorem statements: the matched
magic constant (big-endian reading taking precedence) and the remaining
fields decoded in the byte order it implies. -/
def decodedHeader (buf : List Nat) : PcapHeader :=
  ⟨(if word32 .Big buf ∈ acceptedMagics then word32 .Big buf else word32 .Little buf),
   word16 (magicEndianness
     (if word32 .Big buf ∈ acceptedMagics then word32 .Big buf else word32 .Little buf))
     (buf.drop 4),
   word16 (magicEndianness
     (if word32 .Big buf ∈ acceptedMagics then word32 .Big buf else word32 .Little buf))
     (buf.drop 6),
   (if word32 (magicEndianness
        (if word32 .Big buf ∈ acceptedMagics then word32 .Big buf else word32 .Little buf))
        (buf.drop 8) < 2147483648 then
      (word32 (magicEndianness
        (if word32 .Big buf ∈ acceptedMagics then word32 .Big buf else word32 .Little buf))
        (buf.drop 8) : Int)
    else
      (word32 (magicEndianness
        (if word32 .Big buf ∈ acceptedMagics then word32 .Big buf else word32 .Little buf))
        (buf.drop 8) : Int) - 4294967296),
   word32 (magicEndianness
     (if word32 .Big buf ∈ acceptedMagics then word32 .Big buf else word32 .Little buf))
     (buf.drop 12),
   word32 (magicEndianness
     (if word32 .Big buf ∈ acceptedMagics then word32 .Big buf else word32 .Little buf))
     (buf.drop 16),
   word32 (magicEndianness
     (if word32 .Big buf ∈ acceptedMagics then word32 .Big buf else word32 .Little buf))
     (buf.drop 20)⟩

/-- The per-packet record header (spec section 3; the `PacketHeader`
struct itself is not under `src/`). Field names follow the source:
`ts_usec` is the spec's `ts_fraction`, `incl_len` the spec's
`captured_length`, `orig_len` the spec's `original_length`. -/
structure PacketHeader where
  ts_sec : Nat
  ts_usec : Nat
  incl_len : Nat
  orig_len : Nat
deriving DecidableEq

/-- A packet record: header plus payload bytes (spec section 3). -/
structure Packet where
  header : PacketHeader
  data : List Nat
deriving DecidableEq

/-- Modelled from the spec: `PacketHeader::to_array` is not under `src/`.
It serializes the four header fields, 4 bytes each, in the given byte
order (spec section 6 layout); it sees only the header, not the payload. -/
def PacketHeader.to_array (h : PacketHeader) (e : Endianness) : List Nat :=
  enc32 e h.ts_sec ++
  enc32 e h.ts_usec ++
  enc32 e h.incl_len ++
  enc32 e h.orig_len

/-- Modelled from the spec: `Packet::from_slice` is not under `src/`.
Per spec section 4.2, decode requires at least 16 bytes for the fixed
header (else a header-level truncation error), reads the four fields in
the given byte order, then requires `captured_length` further payload
bytes (else `TruncatedPacketData`); the payload is the sub-slice after
byte 16 and the remainder starts after the payload. The timestamp
resolution only tags the meaning of `ts_usec` and does not change the
byte layout. -/
def Packet.from_slice (e : Endianness) (tsr : TsResolution) (buf : List Nat) :
    ResultParsing (Packet × List Nat) :=
  let _ := tsr
  if buf.length < 16 then .error .truncatedHeader
  else
    let n := word32 e (buf.drop 8)
    if buf.length < 16 + n then .error .truncatedPacketData
    else
      .ok (⟨⟨word32 e buf,
             word32 e (buf.drop 4),
             n,
             word32 e (buf.drop 12)⟩,
            (buf.drop 16).take n⟩,
           buf.drop (16 + n))

/-- The parser: a stateful holder of a decoded global header
(source: `src/pcap/parser.rs`, `PcapParser`). -/
structure PcapParser where
  header : PcapHeader
deriving DecidableEq

/-- `PcapParser::new` (source: `src/pcap/parser.rs` lines 43-54): decodes
the global header from the start of the stream and returns the parser and
the remainder. -/
def PcapParser.new (slice : List Nat) : ResultParsing (PcapParser × List Nat) :=
  match PcapHeader.from_slice slice with
  | .ok (header, slice) => .ok (⟨header⟩, slice)
  | .error e => .error e

/-- `PcapParser::next_packet` (source: `src/pcap/parser.rs` lines 57-65):
delegates to `Packet::from_slice` with the stored header's derived
timestamp resolution and endianness. The Rust receiver is `&self`, so the
call is modelled as a pure function of the parser value and the buffer. -/
def PcapParser.next_packet (p : PcapParser) (slice : List Nat) :
    ResultParsing (Packet × List Nat) :=
  let ts_resolution := p.header.ts_resolution
  match p.header.endianness with
  | .Big => Packet.from_slice .Big ts_resolution slice
  | .Little => Packet.from_slice .Little ts_resolution slice

/-- The writer: the stored global header and the wrapped sink, modelled
as the list of bytes written so far (source: `src/writer.rs`,
`PcapWriter`). -/
structure PcapWriter where
  header : PcapHeader
  writer : List Nat
deriving DecidableEq

/-- Outcome of a writer operation: the updated writer, or the
`unreachable!` defensive branch of the magic-number dispatch (a panic in
the source). Sink writes themselves always succeed in the model. -/
inductive WriteStep
  | ok (pw : PcapWriter)
  | unreachableTaken
deriving DecidableEq

/-- `PcapWriter::with_header` (source: `src/writer.rs` lines 119-134):
dispatches on the header's magic number — `0xa1b2c3d4` writes the header
big-endian, `0xd4c3b2a1` little-endian, and any other value hits the
`unreachable!` branch — then stores the header and sink. -/
def PcapWriter.with_header (header : PcapHeader) (writer : List Nat) : WriteStep :=
  if header.magic_number = 0xa1b2c3d4 then
    .ok ⟨header, writer ++ header.to_array .Big⟩
  else if header.magic_number = 0xd4c3b2a1 then
    .ok ⟨header, writer ++ header.to_array .Little⟩
  else
    .unreachableTaken

/-- The default global header written by `PcapWriter::new`
(source: `src/writer.rs` lines 75-83). -/
def defaultHeader : PcapHeader :=
  ⟨0xa1b2c3d4, 2, 4, 0, 0, 65535, Datalink.Ethernet⟩

/-- `PcapWriter::new` (source: `src/writer.rs` lines 73-86): builds the
default global header and delegates to `with_header`. -/
def PcapWriter.new (writer : List Nat) : WriteStep :=
  PcapWriter.with_header defaultHeader writer

/-- `PcapWriter::write_packet` (source: `src/writer.rs` lines 230-241):
dispatches on the stored header's magic number (`0xa1b2c3d4` big-endian,
`0xd4c3b2a1` little-endian, anything else hits `unreachable!`), writes
the serialized caller-supplied packet header, then writes the payload. -/
def PcapWriter.write_packet (pw : PcapWriter) (packet : Packet) : WriteStep :=
  if pw.header.magic_number = 0xa1b2c3d4 then
    .ok ⟨pw.header, pw.writer ++ packet.header.to_array .Big ++ packet.data⟩
  else if pw.header.magic_number = 0xd4c3b2a1 then
    .ok ⟨pw.header, pw.writer ++ packet.header.to_array .Little ++ packet.data⟩
  else
    .unreachableTaken

/-- The packet built by `PcapWriter::write` (source: `src/writer.rs`
lines 201-210): both length fields are `data.len() as u32`, i.e. the
length reduced modulo 2^32. -/
def packetOfWrite (ts_sec ts_usec : Nat) (data : List Nat) : Packet :=
  ⟨⟨ts_sec, ts_usec, data.length % 4294967296, data.length % 4294967296⟩, data⟩

/-- `PcapWriter::write` (source: `src/writer.rs` lines 199-213): builds
the packet from the raw arguments and forwards to `write_packet`. -/
def PcapWriter.write (pw : PcapWriter) (ts_sec ts_usec : Nat) (data : List Nat) : WriteStep :=
  pw.write_packet (packetOfWrite ts_sec ts_usec data)

/-! ## General lemmas about the codecs -/

/-- Reading back a 32-bit value just encoded, in the same byte order,
recovers the value modulo 2^32. -/
theorem word32_enc32 (e : Endianness) (n : Nat) (r : List Nat) :
    word32 e (enc32 e n ++ r) = n % 4294967296 := by
  cases e <;> simp [enc32, word32] <;> omega

/-- Reading back a 16-bit value just encoded, in the same byte order,
recovers the value modulo 2^16. -/
theorem word16_enc16 (e : Endianness) (n : Nat) (r : List Nat) :
    word16 e (enc16 e n ++ r) = n % 65536 := by
  cases e <;> simp [enc16, word16] <;> omega

/-- A serialized packet header is 16 bytes. -/
theorem PacketHeader.length_to_array_packet (h : PacketHeader) (e : Endianness) :
    (h.to_array e).length = 16 := by
  cases e <;> simp [PacketHeader.to_array, enc32]

/-- A serialized global header is 24 bytes. -/
theorem PcapHeader.length_to_array_header (h : PcapHeader) (e : Endianness) :
    (h.to_array e).length = 24 := by
  cases e <;> simp [PcapHeader.to_array, enc32, enc16]

/-- Layout of an encoded global header: its length, and what each field
read at its offset recovers, modulo the field width. -/
theorem headerLayout (m vmaj vmin tsn acc snap dl : Nat) (e : Endianness)
    (hm : m < 4294967296) :
    (enc32 .Big m ++ enc16 e vmaj ++ enc16 e vmin ++ enc32 e tsn ++
      enc32 e acc ++ enc32 e snap ++ enc32 e dl).length = 24 ∧
    word32 .Big (enc32 .Big m ++ enc16 e vmaj ++ enc16 e vmin ++ enc32 e tsn ++
      enc32 e acc ++ enc32 e snap ++ enc32 e dl) = m ∧
    word16 e ((enc32 .Big m ++ enc16 e vmaj ++ enc16 e vmin ++ enc32 e tsn ++
      enc32 e acc ++ enc32 e snap ++ enc32 e dl).drop 4) = vmaj % 65536 ∧
    word16 e ((enc32 .Big m ++ enc16 e vmaj ++ enc16 e vmin ++ enc32 e tsn ++
      enc32 e acc ++ enc32 e snap ++ enc32 e dl).drop 6) = vmin % 65536 ∧
    word32 e ((enc32 .Big m ++ enc16 e vmaj ++ enc16 e vmin ++ enc32 e tsn ++
      enc32 e acc ++ enc32 e snap ++ enc32 e dl).drop 8) = tsn % 4294967296 ∧
    word32 e ((enc32 .Big m ++ enc16 e vmaj ++ enc16 e vmin ++ enc32 e tsn ++
      enc32 e acc ++ enc32 e snap ++ enc32 e dl).drop 12) = acc % 4294967296 ∧
    word32 e ((enc32 .Big m ++ enc16 e vmaj ++ enc16 e vmin ++ enc32 e tsn ++
      enc32 e acc ++ enc32 e snap ++ enc32 e dl).drop 16) = snap % 4294967296 ∧
    word32 e ((enc32 .Big m ++ enc16 e vmaj ++ enc16 e vmin ++ enc32 e tsn ++
      enc32 e acc ++ enc32 e snap ++ enc32 e dl).drop 20) = dl % 4294967296 ∧
    (enc32 .Big m ++ enc16 e vmaj ++ enc16 e vmin ++ enc32 e tsn ++
      enc32 e acc ++ enc32 e snap ++ enc32 e dl).drop 24 = [] := by
  cases e <;>
    refine ⟨by simp [enc32, enc16], by simp [enc32, enc16, word32]; omega,
      by simp [enc32, enc16, word16]; omega, by simp [enc32, enc16, word16]; omega,
      by simp [enc32, enc16, word32]; omega, by simp [enc32, enc16, word32]; omega,
      by simp [enc32, enc16, word32]; omega, by simp [enc32, enc16, word32]; omega,
      by simp [enc32, enc16]⟩

/-- On a buffer of at least 24 bytes whose leading word matches an
accepted magic in one of the two readings, global-header decode succeeds
with the decoded header and the remainder after byte 24. -/
theorem PcapHeader.from_slice_success (buf : List Nat) (hlen : ¬ buf.length < 24)
    (hmem : word32 .Big buf ∈ acceptedMagics ∨ word32 .Little buf ∈ acceptedMagics) :
    PcapHeader.from_slice buf = .ok (decodedHeader buf, buf.drop 24) := by
  unfold PcapHeader.from_slice
  rw [if_neg hlen, if_pos hmem]
  rfl

/-- On a buffer of at least 24 bytes whose leading word matches no
accepted magic in either reading, global-header decode fails with
`InvalidMagicNumber`. -/
theorem PcapHeader.from_slice_invalid (buf : List Nat) (hlen : ¬ buf.length < 24)
    (h1 : word32 .Big buf ∉ acceptedMagics) (h2 : word32 .Little buf ∉ acceptedMagics) :
    PcapHeader.from_slice buf = .error .invalidMagicNumber := by
  unfold PcapHeader.from_slice
  rw [if_neg hlen, if_neg (not_or.mpr ⟨h1, h2⟩)]

/-! ## Claim theorems -/

/-- C1: the claim says that for every global header whose magic number is
one of the four accepted constants, `with_header` and every subsequent
`write_packet` reach a valid byte-order branch. The writer's dispatch
only matches `0xa1b2c3d4` and `0xd4c3b2a1`: for the accepted nanosecond
magic `0xa1b23c4d` (and `0x4d3cb2a1`) both `with_header` and
`write_packet` take the defensive `unreachable!` branch, contradicting
the claim and the branch's own "should always be valid here" message. -/
theorem C1_nanosecond_magic_hits_unreachable :
    PcapWriter.with_header ⟨0xa1b23c4d, 2, 4, 0, 0, 65535, Datalink.Ethernet⟩ [] =
      .unreachableTaken ∧
    PcapWriter.with_header ⟨0x4d3cb2a1, 2, 4, 0, 0, 65535, Datalink.Ethernet⟩ [] =
      .unreachableTaken ∧
    0xa1b23c4d ∈ acceptedMagics ∧ 0x4d3cb2a1 ∈ acceptedMagics ∧
    PcapWriter.write_packet ⟨⟨0xa1b23c4d, 2, 4, 0, 0, 65535, Datalink.Ethernet⟩, []⟩
      ⟨⟨0, 0, 0, 0⟩, []⟩ = .unreachableTaken := by
  decide

/-- C2 counterexample: `write_packet` serializes the caller-supplied
packet header as given. For a packet whose header claims
`captured_length = 5` over a 3-byte payload, the emitted bytes at offset
8 of the record encode 5, not the actual slice length 3 — the field is
not recomputed from the slice. -/
theorem C2_captured_length_counterexample :
    PcapWriter.write_packet ⟨defaultHeader, []⟩ ⟨⟨0, 0, 5, 5⟩, [1, 2, 3]⟩ =
      .ok ⟨defaultHeader, [0, 0, 0, 0, 0, 0, 0, 0, 0, 0, 0, 5, 0, 0, 0, 5, 1, 2, 3]⟩ ∧
    (([0, 0, 0, 0, 0, 0, 0, 0, 0, 0, 0, 5, 0, 0, 0, 5, 1, 2, 3] : List Nat).drop 8).take 4 =
      [0, 0, 0, 5] ∧
    ([1, 2, 3] : List Nat).length = 3 ∧
    enc32 Endianness.Big ([1, 2, 3] : List Nat).length = [0, 0, 0, 3] ∧
    ([0, 0, 0, 5] : List Nat) ≠ [0, 0, 0, 3] := by
  decide

/-- C2 (amended): in every successful `write_packet` call, the
`captured_length` field of the emitted record equals the encoding, in the
writer's byte order, of the caller-supplied header's `incl_len` — taken
from the header, not recomputed from the data slice (only the `write`
convenience sets it from `data.length`). -/
theorem C2_captured_length_from_header (pw : PcapWriter) (p : Packet) (pw' : PcapWriter)
    (h : pw.write_packet p = .ok pw') :
    ((pw'.writer.drop pw.writer.length).drop 8).take 4 =
      enc32 pw.header.endianness p.header.incl_len := by
  unfold PcapWriter.write_packet at h
  split at h
  case isTrue hm =>
    simp only [WriteStep.ok.injEq] at h
    subst h
    rw [show pw.header.endianness = Endianness.Big by
      simp [PcapHeader.endianness, magicEndianness, hm]]
    simp only [List.append_assoc, List.drop_left]
    simp [PacketHeader.to_array, enc32]
  case isFalse hm =>
    split at h
    case isTrue hm2 =>
      simp only [WriteStep.ok.injEq] at h
      subst h
      rw [show pw.header.endianness = Endianness.Little by
        simp [PcapHeader.endianness, magicEndianness, hm, hm2]]
      simp only [List.append_assoc, List.drop_left]
      simp [PacketHeader.to_array, enc32]
    case isFalse hm2 =>
      simp at h

/-- C2 witness: the amended theorem applied at a concrete packet whose
header claims `captured_length = 7` over a 1-byte payload. -/
theorem C2_captured_length_from_header_witness :
    PcapWriter.write_packet ⟨defaultHeader, []⟩ ⟨⟨0, 0, 7, 9⟩, [1]⟩ =
      .ok ⟨defaultHeader, [0, 0, 0, 0, 0, 0, 0, 0, 0, 0, 0, 7, 0, 0, 0, 9, 1]⟩ ∧
    (((⟨defaultHeader, [0, 0, 0, 0, 0, 0, 0, 0, 0, 0, 0, 7, 0, 0, 0, 9, 1]⟩ : PcapWriter).writer.drop
          (⟨defaultHeader, []⟩ : PcapWriter).writer.length).drop 8).take 4 =
      enc32 ((⟨defaultHeader, []⟩ : PcapWriter).header.endianness)
        (⟨0, 0, 7, 9⟩ : PacketHeader).incl_len :=
  ⟨by decide,
   C2_captured_length_from_header ⟨defaultHeader, []⟩ ⟨⟨0, 0, 7, 9⟩, [1]⟩
     ⟨defaultHeader, [0, 0, 0, 0, 0, 0, 0, 0, 0, 0, 0, 7, 0, 0, 0, 9, 1]⟩ (by decide)⟩

/-- C3: for every global header whose magic number is one of the four
accepted constants (and whose fields are in their Rust integer ranges),
decoding the 24 bytes produced by encoding the header yields the header
back with an empty remainder. -/
theorem C3_header_round_trip (h : PcapHeader) (hm : h.magic_number ∈ acceptedMagics)
    (h1 : h.version_major < 65536) (h2 : h.version_minor < 65536)
    (h3 : -2147483648 ≤ h.ts_correction) (h4 : h.ts_correction < 2147483648)
    (h5 : h.ts_accuracy < 4294967296) (h6 : h.snaplen < 4294967296)
    (h7 : h.datalink < 4294967296) :
    PcapHeader.from_slice (h.to_array h.endianness) = .ok (h, []) := by
  obtain ⟨m, vmaj, vmin, tsc, acc, snap, dl⟩ := h
  dsimp only at hm h1 h2 h3 h4 h5 h6 h7
  have hcases : m = 0xa1b2c3d4 ∨ m = 0xd4c3b2a1 ∨ m = 0xa1b23c4d ∨ m = 0x4d3cb2a1 := by
    simpa [acceptedMagics] using hm
  have hmlt : m < 4294967296 := by
    rcases hcases with rfl | rfl | rfl | rfl <;> norm_num
  show PcapHeader.from_slice
      (enc32 .Big m ++ enc16 (magicEndianness m) vmaj ++ enc16 (magicEndianness m) vmin ++
       enc32 (magicEndianness m) ((tsc % 4294967296).toNat) ++ enc32 (magicEndianness m) acc ++
       enc32 (magicEndianness m) snap ++ enc32 (magicEndianness m) dl) =
    .ok (⟨m, vmaj, vmin, tsc, acc, snap, dl⟩, [])
  obtain ⟨hlen, hw0, hw4, hw6, hw8, hw12, hw16, hw20, hw24⟩ :=
    headerLayout m vmaj vmin ((tsc % 4294967296).toNat) acc snap dl (magicEndianness m) hmlt
  have heq := PcapHeader.from_slice_success
    (enc32 .Big m ++ enc16 (magicEndianness m) vmaj ++ enc16 (magicEndianness m) vmin ++
     enc32 (magicEndianness m) ((tsc % 4294967296).toNat) ++ enc32 (magicEndianness m) acc ++
     enc32 (magicEndianness m) snap ++ enc32 (magicEndianness m) dl)
    (by omega) (Or.inl (by rw [hw0]; exact hm))
  rw [heq, hw24]
  simp only [decodedHeader]
  rw [hw0]
  simp only [if_pos hm]
  rw [hw4, hw6, hw8, hw12, hw16, hw20]
  simp only [ResultParsing.ok.injEq, Prod.mk.injEq, PcapHeader.mk.injEq]
  refine ⟨⟨trivial, by omega, by omega, ?_, by omega, by omega, by omega⟩, trivial⟩
  split <;> omega

/-- C3 witness: round trip at a concrete little-endian nanosecond header
with a negative timezone correction. -/
theorem C3_header_round_trip_witness :
    (⟨0x4d3cb2a1, 2, 4, -1, 7, 65535, 1⟩ : PcapHeader).magic_number ∈ acceptedMagics ∧
    PcapHeader.from_slice
      (PcapHeader.to_array ⟨0x4d3cb2a1, 2, 4, -1, 7, 65535, 1⟩
        (PcapHeader.endianness ⟨0x4d3cb2a1, 2, 4, -1, 7, 65535, 1⟩)) =
      .ok (⟨0x4d3cb2a1, 2, 4, -1, 7, 65535, 1⟩, []) :=
  ⟨by decide,
   C3_header_round_trip ⟨0x4d3cb2a1, 2, 4, -1, 7, 65535, 1⟩ (by decide) (by decide) (by decide)
     (by decide) (by decide) (by decide) (by decide) (by decide)⟩

/-- C4: the derivation table of the four accepted magic constants; a
24-byte buffer whose leading 4 bytes match an accepted constant in
either byte-order reading decodes successfully to the matched constant
(big-endian reading taking precedence) with its derived byte order and
timestamp unit; any other leading 4 bytes yield `InvalidMagicNumber`. -/
theorem C4_magic_number_coverage (buf : List Nat) (hlen : buf.length = 24) :
    (magicEndianness 0xa1b2c3d4 = .Big ∧ magicTsResolution 0xa1b2c3d4 = .MicroSecond ∧
     magicEndianness 0xd4c3b2a1 = .Little ∧ magicTsResolution 0xd4c3b2a1 = .MicroSecond ∧
     magicEndianness 0xa1b23c4d = .Big ∧ magicTsResolution 0xa1b23c4d = .NanoSecond ∧
     magicEndianness 0x4d3cb2a1 = .Little ∧ magicTsResolution 0x4d3cb2a1 = .NanoSecond) ∧
    ((word32 .Big buf ∈ acceptedMagics ∨ word32 .Little buf ∈ acceptedMagics) →
      PcapHeader.from_slice buf = .ok (decodedHeader buf, buf.drop 24) ∧
      (decodedHeader buf).magic_number =
        (if word32 .Big buf ∈ acceptedMagics then word32 .Big buf else word32 .Little buf) ∧
      (decodedHeader buf).magic_number ∈ acceptedMagics ∧
      (decodedHeader buf).endianness = magicEndianness (decodedHeader buf).magic_number ∧
      (decodedHeader buf).ts_resolution = magicTsResolution (decodedHeader buf).magic_number) ∧
    (word32 .Big buf ∉ acceptedMagics ∧ word32 .Little buf ∉ acceptedMagics →
      PcapHeader.from_slice buf = .error .invalidMagicNumber) := by
  refine ⟨by decide, fun hmem => ?_, fun hno => ?_⟩
  · refine ⟨PcapHeader.from_slice_success buf (by omega) hmem, rfl, ?_, rfl, rfl⟩
    by_cases hb : word32 .Big buf ∈ acceptedMagics
    · simp only [decodedHeader]
      rw [if_pos hb]
      exact hb
    · have hl := hmem.resolve_left hb
      simp only [decodedHeader]
      rw [if_neg hb]
      exact hl
  · exact PcapHeader.from_slice_invalid buf (by omega) hno.1 hno.2

/-- C4 witness: the coverage theorem applied to a concrete 24-byte
big-endian buffer, with the decoded header evaluated. -/
theorem C4_magic_number_coverage_witness :
    PcapHeader.from_slice
      [0xa1, 0xb2, 0xc3, 0xd4, 0, 2, 0, 4, 0, 0, 0, 0, 0, 0, 0, 0,
       0, 0, 0xff, 0xff, 0, 0, 0, 1] =
      .ok (decodedHeader
        [0xa1, 0xb2, 0xc3, 0xd4, 0, 2, 0, 4, 0, 0, 0, 0, 0, 0, 0, 0,
         0, 0, 0xff, 0xff, 0, 0, 0, 1],
        ([0xa1, 0xb2, 0xc3, 0xd4, 0, 2, 0, 4, 0, 0, 0, 0, 0, 0, 0, 0,
          0, 0, 0xff, 0xff, 0, 0, 0, 1] : List Nat).drop 24) ∧
    (decodedHeader
      [0xa1, 0xb2, 0xc3, 0xd4, 0, 2, 0, 4, 0, 0, 0, 0, 0, 0, 0, 0,
       0, 0, 0xff, 0xff, 0, 0, 0, 1]).magic_number ∈ acceptedMagics ∧
    decodedHeader
      [0xa1, 0xb2, 0xc3, 0xd4, 0, 2, 0, 4, 0, 0, 0, 0, 0, 0, 0, 0,
       0, 0, 0xff, 0xff, 0, 0, 0, 1] = ⟨0xa1b2c3d4, 2, 4, 0, 0, 65535, 1⟩ :=
  ⟨((C4_magic_number_coverage
      [0xa1, 0xb2, 0xc3, 0xd4, 0, 2, 0, 4, 0, 0, 0, 0, 0, 0, 0, 0,
       0, 0, 0xff, 0xff, 0, 0, 0, 1] rfl).2.1 (by decide)).1,
   ((C4_magic_number_coverage
      [0xa1, 0xb2, 0xc3, 0xd4, 0, 2, 0, 4, 0, 0, 0, 0, 0, 0, 0, 0,
       0, 0, 0xff, 0xff, 0, 0, 0, 1] rfl).2.1 (by decide)).2.2.1,
   by decide⟩

/-- C5: decoding a global header from a buffer of 23 bytes or fewer
fails with `TruncatedHeader`; decoding a packet from a buffer holding a
full 16-byte packet header whose `captured_length` claims more payload
bytes than follow fails with `TruncatedPacketData`, an error distinct
from the header-level truncation. -/
theorem C5_truncation (buf : List Nat) (e : Endianness) (tsr : TsResolution) :
    (buf.length ≤ 23 → PcapHeader.from_slice buf = .error .truncatedHeader) ∧
    (16 ≤ buf.length → buf.length < 16 + word32 e (buf.drop 8) →
      Packet.from_slice e tsr buf = .error .truncatedPacketData) ∧
    PcapError.truncatedPacketData ≠ PcapError.truncatedHeader := by
  refine ⟨fun h => ?_, fun h1 h2 => ?_, by decide⟩
  · unfold PcapHeader.from_slice
    rw [if_pos (by omega)]
  · unfold Packet.from_slice
    rw [if_neg (by omega), if_pos h2]

/-- C5 witness: a 16-byte buffer whose packet header claims one payload
byte but carries none; as a global header it is also short of 24 bytes. -/
theorem C5_truncation_witness :
    PcapHeader.from_slice [0, 0, 0, 0, 0, 0, 0, 0, 0, 0, 0, 1, 0, 0, 0, 0] =
      .error .truncatedHeader ∧
    Packet.from_slice .Big .MicroSecond [0, 0, 0, 0, 0, 0, 0, 0, 0, 0, 0, 1, 0, 0, 0, 0] =
      .error .truncatedPacketData :=
  ⟨(C5_truncation [0, 0, 0, 0, 0, 0, 0, 0, 0, 0, 0, 1, 0, 0, 0, 0] .Big .MicroSecond).1
     (by decide),
   (C5_truncation [0, 0, 0, 0, 0, 0, 0, 0, 0, 0, 0, 1, 0, 0, 0, 0] .Big .MicroSecond).2.1
     (by decide) (by decide)⟩

/-- C6: a successful `write_packet` call appends to the sink exactly the
16 packet-header bytes encoded in the writer's byte order (derived from
the stored header's magic number) followed by the payload bytes, and
leaves the stored header unchanged. -/
theorem C6_write_packet_output (pw : PcapWriter) (p : Packet) (pw' : PcapWriter)
    (h : pw.write_packet p = .ok pw') :
    pw'.writer = pw.writer ++ p.header.to_array pw.header.endianness ++ p.data ∧
    pw'.header = pw.header ∧
    (p.header.to_array pw.header.endianness).length = 16 := by
  unfold PcapWriter.write_packet at h
  split at h
  case isTrue hm =>
    simp only [WriteStep.ok.injEq] at h
    subst h
    simp [PcapHeader.endianness, magicEndianness, hm, PacketHeader.length_to_array_packet]
  case isFalse hm =>
    split at h
    case isTrue hm2 =>
      simp only [WriteStep.ok.injEq] at h
      subst h
      simp [PcapHeader.endianness, magicEndianness, hm, hm2, PacketHeader.length_to_array_packet]
    case isFalse hm2 =>
      simp at h

/-- C6 witness: a concrete successful `write_packet` call on the default
header, with the conclusion evaluated. -/
theorem C6_write_packet_output_witness :
    PcapWriter.write_packet ⟨defaultHeader, []⟩ ⟨⟨1, 2, 3, 4⟩, [9]⟩ =
      .ok ⟨defaultHeader, [0, 0, 0, 1, 0, 0, 0, 2, 0, 0, 0, 3, 0, 0, 0, 4, 9]⟩ ∧
    ((⟨defaultHeader, [0, 0, 0, 1, 0, 0, 0, 2, 0, 0, 0, 3, 0, 0, 0, 4, 9]⟩ : PcapWriter).writer =
        (⟨defaultHeader, []⟩ : PcapWriter).writer ++
          PacketHeader.to_array ⟨1, 2, 3, 4⟩ ((⟨defaultHeader, []⟩ : PcapWriter).header.endianness) ++
          [9] ∧
      (⟨defaultHeader, [0, 0, 0, 1, 0, 0, 0, 2, 0, 0, 0, 3, 0, 0, 0, 4, 9]⟩ : PcapWriter).header =
        (⟨defaultHeader, []⟩ : PcapWriter).header ∧
      (PacketHeader.to_array ⟨1, 2, 3, 4⟩
          ((⟨defaultHeader, []⟩ : PcapWriter).header.endianness)).length = 16) :=
  ⟨by decide,
   C6_write_packet_output ⟨defaultHeader, []⟩ ⟨⟨1, 2, 3, 4⟩, [9]⟩
     ⟨defaultHeader, [0, 0, 0, 1, 0, 0, 0, 2, 0, 0, 0, 3, 0, 0, 0, 4, 9]⟩ (by decide)⟩

/-- C7: the default constructor builds the canonical global header
(magic `0xa1b2c3d4`, version 2.4, zero correction and accuracy, snaplen
65535, Ethernet link type) and writes exactly its 24-byte big-endian
encoding to the sink before returning, storing that header. -/
theorem C7_default_writer (w : List Nat) :
    PcapWriter.new w = .ok ⟨defaultHeader, w ++ PcapHeader.to_array defaultHeader .Big⟩ ∧
    defaultHeader = ⟨0xa1b2c3d4, 2, 4, 0, 0, 65535, Datalink.Ethernet⟩ ∧
    PcapHeader.to_array defaultHeader .Big =
      [0xa1, 0xb2, 0xc3, 0xd4, 0, 2, 0, 4, 0, 0, 0, 0, 0, 0, 0, 0,
       0, 0, 0xff, 0xff, 0, 0, 0, 1] ∧
    (PcapHeader.to_array defaultHeader .Big).length = 24 := by
  refine ⟨?_, by decide, by decide, by decide⟩
  simp [PcapWriter.new, PcapWriter.with_header, defaultHeader]

/-- The `captured_length` stored by the packet built in `write`, as an
unfolding lemma. -/
theorem packetOfWrite_incl_len (ts_sec ts_usec : Nat) (d : List Nat) :
    (packetOfWrite ts_sec ts_usec d).header.incl_len = d.length % 4294967296 := rfl

/-- C8 counterexample: the packet built by `write` stores
`data.len() as u32`, so for a slice of length 2^32 the stored
`captured_length` is 0, not the slice length — the claim's
"captured_length equals data.length" fails for such a slice. -/
theorem C8_write_counterexample :
    (packetOfWrite 0 0 (List.replicate 4294967296 0)).header.incl_len ≠
      (List.replicate 4294967296 (0 : Nat)).length := by
  rw [packetOfWrite_incl_len, List.length_replicate]
  norm_num

/-- C8 (amended): `write` builds a packet whose `captured_length` and
`original_length` are `data.length` reduced modulo 2^32 and whose
timestamp fields are the given arguments, and produces exactly the sink
output of `write_packet` on that packet. -/
theorem C8_write_forwards (pw : PcapWriter) (ts_sec ts_usec : Nat) (data : List Nat) :
    packetOfWrite ts_sec ts_usec data =
      ⟨⟨ts_sec, ts_usec, data.length % 4294967296, data.length % 4294967296⟩, data⟩ ∧
    pw.write ts_sec ts_usec data = pw.write_packet (packetOfWrite ts_sec ts_usec data) :=
  ⟨rfl, rfl⟩

/-- C9: `next_packet` is a pure, deterministic function of the parser's
stored header and the input buffer: equal buffers give equal results, and
any parser holding an equal header gives the same result (the parser has
no other state, and the Rust receiver is `&self`, so no call mutates it). -/
theorem C9_next_packet_pure (p q : PcapParser) (s₁ s₂ : List Nat)
    (hh : q.header = p.header) (hs : s₁ = s₂) :
    p.next_packet s₁ = p.next_packet s₂ ∧ q.next_packet s₁ = p.next_packet s₁ := by
  subst hs
  cases p
  cases q
  simp only at hh
  subst hh
  exact ⟨rfl, rfl⟩

/-- C9 witness: the purity theorem applied at a concrete parser and
buffer. -/
theorem C9_next_packet_pure_witness :
    (⟨defaultHeader⟩ : PcapParser).next_packet [1, 2] =
      (⟨defaultHeader⟩ : PcapParser).next_packet [1, 2] ∧
    (⟨defaultHeader⟩ : PcapParser).next_packet [1, 2] =
      (⟨defaultHeader⟩ : PcapParser).next_packet [1, 2] :=
  C9_next_packet_pure ⟨defaultHeader⟩ ⟨defaultHeader⟩ [1, 2] [1, 2] rfl rfl

/-- C10: `write` computes both length fields as the data length reduced
modulo 2^32 (the `as u32` cast); for data of length at most 2^32 - 1 the
fields equal the exact length, and for longer data they wrap. -/
theorem C10_write_length_cast (ts_sec ts_usec : Nat) (data : List Nat) :
    (packetOfWrite ts_sec ts_usec data).header.incl_len = data.length % 4294967296 ∧
    (packetOfWrite ts_sec ts_usec data).header.orig_len = data.length % 4294967296 ∧
    (data.length ≤ 4294967295 →
      (packetOfWrite ts_sec ts_usec data).header.incl_len = data.length ∧
      (packetOfWrite ts_sec ts_usec data).header.orig_len = data.length) := by
  refine ⟨rfl, rfl, fun h => ?_⟩
  constructor <;> simp [packetOfWrite] <;> omega

/-- C10 witness: the cast theorem applied at a concrete short slice. -/
theorem C10_write_length_cast_witness :
    (packetOfWrite 7 8 [1, 2, 3]).header.incl_len = ([1, 2, 3] : List Nat).length % 4294967296 ∧
    ([1, 2, 3] : List Nat).length ≤ 4294967295 ∧
    ((packetOfWrite 7 8 [1, 2, 3]).header.incl_len = ([1, 2, 3] : List Nat).length ∧
      (packetOfWrite 7 8 [1, 2, 3]).header.orig_len = ([1, 2, 3] : List Nat).length) :=
  ⟨(C10_write_length_cast 7 8 [1, 2, 3]).1, by decide,
   (C10_write_length_cast 7 8 [1, 2, 3]).2.2 (by decide)⟩

end PcapFile
